import Mathlib

/-!
Shallow embedding of `src/app/utils/calculateLevelPoints.ts` and proofs about it.

JavaScript numbers are modelled by `JNum`: a finite real value, `nan`
(not-a-number), `inf` (positive infinity) or `ninf` (negative infinity).
Arithmetic on `JNum` follows IEEE-754 double semantics restricted to these
cases (signed zero is identified with zero, which is faithful on every input
considered here: no computation in the source can produce a negative zero
that is distinguished from positive zero by a later step).

Input fields (`topTimes` entries, `personalBests`, `totalRecords`,
`levelRating`) are finite real numbers, as in every claim; intermediate
values that can become infinite or not-a-number (averages, divisions,
logarithms) live in `JNum`.
-/

namespace Zeepkist

/-- Model of a JavaScript number: a finite real, NaN, or a signed infinity. -/
inductive JNum where
  | num : ℝ → JNum
  | nan : JNum
  | inf : JNum
  | ninf : JNum

namespace JNum

/-- Model of `Number.isFinite`. -/
def isFinite : JNum → Bool
  | num _ => true
  | _ => false

/-- IEEE addition. -/
noncomputable def add : JNum → JNum → JNum
  | nan, _ => nan
  | _, nan => nan
  | num a, num b => num (a + b)
  | num _, inf => inf
  | inf, num _ => inf
  | num _, ninf => ninf
  | ninf, num _ => ninf
  | inf, inf => inf
  | ninf, ninf => ninf
  | inf, ninf => nan
  | ninf, inf => nan

/-- IEEE subtraction. -/
noncomputable def sub : JNum → JNum → JNum
  | nan, _ => nan
  | _, nan => nan
  | num a, num b => num (a - b)
  | num _, inf => ninf
  | inf, num _ => inf
  | num _, ninf => inf
  | ninf, num _ => ninf
  | inf, inf => nan
  | ninf, ninf => nan
  | inf, ninf => inf
  | ninf, inf => ninf

/-- IEEE multiplication. -/
noncomputable def mul : JNum → JNum → JNum
  | nan, _ => nan
  | _, nan => nan
  | num a, num b => num (a * b)
  | num a, inf => if a = 0 then nan else if 0 < a then inf else ninf
  | inf, num b => if b = 0 then nan else if 0 < b then inf else ninf
  | num a, ninf => if a = 0 then nan else if 0 < a then ninf else inf
  | ninf, num b => if b = 0 then nan else if 0 < b then ninf else inf
  | inf, inf => inf
  | ninf, ninf => inf
  | inf, ninf => ninf
  | ninf, inf => ninf

/-- IEEE division (zero treated as positive zero). -/
noncomputable def div : JNum → JNum → JNum
  | nan, _ => nan
  | _, nan => nan
  | num a, num b =>
      if b = 0 then (if a = 0 then nan else if 0 < a then inf else ninf)
      else num (a / b)
  | num _, inf => num 0
  | num _, ninf => num 0
  | inf, num b => if 0 ≤ b then inf else ninf
  | ninf, num b => if 0 ≤ b then ninf else inf
  | inf, inf => nan
  | inf, ninf => nan
  | ninf, inf => nan
  | ninf, ninf => nan

/-- Model of `Math.log`: natural logarithm with `log 0 = -∞` and
`log x = NaN` for `x < 0`. -/
noncomputable def log : JNum → JNum
  | nan => nan
  | inf => inf
  | ninf => nan
  | num x => if x < 0 then nan else if x = 0 then ninf else num (Real.log x)

/-- Model of `Math.round`: round half toward positive infinity. -/
noncomputable def round : JNum → JNum
  | nan => nan
  | inf => inf
  | ninf => ninf
  | num x => num ((⌊x + 1 / 2⌋ : ℤ) : ℝ)

end JNum

open JNum

/-- Source constant `BASE_POINTS = 2_500`. -/
def BASE_POINTS : ℝ := 2500

/-- Source constant `MINIMUM_PBS = 5`. -/
def MINIMUM_PBS : ℝ := 5

/-- Source `clamp`: returns NaN when any argument fails `Number.isFinite`,
otherwise `Math.max(min, Math.min(max, value))`. -/
def clamp : JNum → JNum → JNum → JNum
  | num v, num lo, num hi => num (max lo (min hi v))
  | _, _, _ => nan

/-- Source `average`: `arr.reduce((sum, val) => sum + val, 0) / arr.length`.
On the empty list this is `0 / 0 = NaN`. -/
noncomputable def average (arr : List ℝ) : JNum :=
  JNum.div (num arr.sum) (num arr.length)

/-- Source `levelScoreLengthMultiplier`. -/
noncomputable def levelScoreLengthMultiplier (wrTime : ℝ) : ℝ :=
  let MIN : ℝ := 0.1
  let MAX : ℝ := 1 - MIN
  let START : ℝ := 5
  let END : ℝ := 20
  if wrTime < END then
    let clamped := max 0 (wrTime - START) / (END - START)
    let eased := Real.sqrt clamped
    MIN + eased * MAX
  else
    1

/-- Result record of `levelScoreCompetitivenessMultiplier`. -/
structure LevelScoreCompetitivenessMultiplierResult where
  modifier : JNum
  spreadScore : JNum
  pbRatio : JNum
  grindinessScore : JNum

/-- Source `normaliseNumber`: maps NaN to `0`, leaves everything else
(including infinities) unchanged. -/
def normaliseNumber : JNum → JNum
  | nan => num 0
  | v => v

/-- Source `levelScoreCompetitivenessMultiplier`. -/
noncomputable def levelScoreCompetitivenessMultiplier (wrTime : ℝ) (topTimes : List ℝ)
    (personalBests totalRecords : ℝ) : LevelScoreCompetitivenessMultiplierResult :=
  if (topTimes.length : ℝ) ≤ MINIMUM_PBS then
    { modifier := num 0.25
      spreadScore := num 0
      pbRatio := num 0
      grindinessScore := num 0 }
  else
    let top10 := topTimes.take 10
    let top50 := topTimes.take 50
    let avgTop10Time := average top10
    let avgTop50Time := average top50
    let spreadScore := JNum.div (JNum.sub avgTop50Time avgTop10Time) avgTop50Time
    let pbRatio :=
      if 0 < personalBests then JNum.div (num personalBests) (num totalRecords) else num 0
    let grindinessScore := JNum.add (num 1) (JNum.log (JNum.mul (num 2) pbRatio))
    let weightedScore :=
      JNum.add (JNum.mul (num 0.65) spreadScore) (JNum.mul (num 0.2) grindinessScore)
    let modifier := normaliseNumber (clamp (JNum.add (num 1) weightedScore) (num (-3)) (num 3))
    { modifier := modifier
      spreadScore := spreadScore
      pbRatio := pbRatio
      grindinessScore := grindinessScore }

/-- Source `levelScoreRatingModifier`. -/
noncomputable def levelScoreRatingModifier (levelRating : ℝ) : JNum :=
  let MIN : ℝ := 0.5
  let MAX : ℝ := 1.3 - MIN
  let normalised := clamp (num (levelRating / 100)) (num 0) (num 1)
  JNum.add (num MIN) (JNum.mul normalised (num MAX))

/-- Source `levelScorePopularityModifier`. -/
noncomputable def levelScorePopularityModifier (personalBests : ℝ) : ℝ :=
  let MIN : ℝ := 0.75
  let MAX : ℝ := 1.3 - MIN
  let PB_CAP : ℝ := 250
  if personalBests < MINIMUM_PBS then
    MIN + 0.05
  else if personalBests < PB_CAP then
    let normalized := (personalBests - 1) / (PB_CAP - 1)
    let eased := Real.sqrt normalized
    MIN + eased * MAX
  else
    MIN + MAX

/-- Input record `CalculateLevelScore` of the source. -/
structure CalculateLevelScore where
  topTimes : List ℝ
  personalBests : ℝ
  totalRecords : ℝ
  levelRating : ℝ

/-- Contributions record `LevelScoreContributions` of the source. -/
structure LevelScoreContributions where
  length : JNum
  competitiveness : JNum
  rating : JNum
  popularity : JNum

/-- Result record `CalculateLevelPointsResult` of the source. -/
structure CalculateLevelPointsResult where
  points : JNum
  contributions : LevelScoreContributions

/-- Source `calculateLevelPoints`. -/
noncomputable def calculateLevelPoints (input : CalculateLevelScore) : CalculateLevelPointsResult :=
  if input.totalRecords = 0 then
    { points := num 0
      contributions :=
        { length := num 0
          competitiveness := num 0
          rating := num 0
          popularity := num 0 } }
  else
    let wrTime := input.topTimes.headD 0
    let lengthMultiplier := normaliseNumber (num (levelScoreLengthMultiplier wrTime))
    let competitivenessMultiplier :=
      (levelScoreCompetitivenessMultiplier wrTime input.topTimes input.personalBests
        input.totalRecords).modifier
    let ratingModifier := normaliseNumber (levelScoreRatingModifier input.levelRating)
    let popularityModifier := normaliseNumber (num (levelScorePopularityModifier input.personalBests))
    let points :=
      JNum.round
        (JNum.mul
          (JNum.mul
            (JNum.mul (JNum.mul (num BASE_POINTS) lengthMultiplier) competitivenessMultiplier)
            (num 1))
          popularityModifier)
    { points := points
      contributions :=
        { length := lengthMultiplier
          competitiveness := competitivenessMultiplier
          rating := num 1
          popularity := popularityModifier } }

/-! ## Basic reduction lemmas -/

@[simp] lemma normaliseNumber_num (x : ℝ) : normaliseNumber (num x) = num x := rfl

@[simp] lemma normaliseNumber_nan : normaliseNumber nan = num 0 := rfl

@[simp] lemma mul_num_num (a b : ℝ) : JNum.mul (num a) (num b) = num (a * b) := rfl

@[simp] lemma add_num_num (a b : ℝ) : JNum.add (num a) (num b) = num (a + b) := rfl

@[simp] lemma sub_num_num (a b : ℝ) : JNum.sub (num a) (num b) = num (a - b) := rfl

@[simp] lemma round_num (x : ℝ) : JNum.round (num x) = num ((⌊x + 1 / 2⌋ : ℤ) : ℝ) := rfl

@[simp] lemma clamp_num (v lo hi : ℝ) :
    clamp (num v) (num lo) (num hi) = num (max lo (min hi v)) := rfl

lemma div_num_num_of_ne (a b : ℝ) (hb : b ≠ 0) :
    JNum.div (num a) (num b) = num (a / b) := by
  simp [JNum.div, hb]

lemma log_num_of_pos (x : ℝ) (hx : 0 < x) : JNum.log (num x) = num (Real.log x) := by
  show (if x < 0 then nan else if x = 0 then ninf else num (Real.log x)) = num (Real.log x)
  rw [if_neg (not_lt.2 hx.le), if_neg hx.ne']

/-- Whatever `JNum` comes out of the weighted-score arithmetic, passing it
through `clamp (-3) 3` followed by `normaliseNumber` yields a finite value
in `[-3, 3]`. -/
lemma normalise_clamp_range (X : JNum) :
    ∃ r : ℝ, normaliseNumber (clamp X (num (-3)) (num 3)) = num r ∧ -3 ≤ r ∧ r ≤ 3 := by
  cases X with
  | num v =>
      refine ⟨max (-3) (min 3 v), rfl, le_max_left _ _, ?_⟩
      exact max_le (by norm_num) (min_le_left _ _)
  | nan => exact ⟨0, rfl, by norm_num, by norm_num⟩
  | inf => exact ⟨0, rfl, by norm_num, by norm_num⟩
  | ninf => exact ⟨0, rfl, by norm_num, by norm_num⟩

/-- The competitiveness modifier is always a finite real in `[-3, 3]`. -/
lemma competitiveness_modifier_range (wr : ℝ) (l : List ℝ) (pb total : ℝ) :
    ∃ r : ℝ, (levelScoreCompetitivenessMultiplier wr l pb total).modifier = num r ∧
      -3 ≤ r ∧ r ≤ 3 := by
  unfold levelScoreCompetitivenessMultiplier
  by_cases h : (l.length : ℝ) ≤ MINIMUM_PBS
  · rw [if_pos h]
    exact ⟨0.25, rfl, by norm_num, by norm_num⟩
  · rw [if_neg h]
    exact normalise_clamp_range _

/-- The length multiplier always lies in `[0.1, 1]`. -/
lemma lengthMultiplier_bounds (w : ℝ) :
    0.1 ≤ levelScoreLengthMultiplier w ∧ levelScoreLengthMultiplier w ≤ 1 := by
  unfold levelScoreLengthMultiplier
  by_cases hw : w < 20
  · rw [if_pos hw]
    have h0 : (0 : ℝ) ≤ Real.sqrt (max 0 (w - 5) / 15) := Real.sqrt_nonneg _
    have h1 : Real.sqrt (max 0 (w - 5) / 15) ≤ 1 := by
      rw [Real.sqrt_le_one]
      rw [div_le_one (by norm_num)]
      exact max_le (by norm_num) (by linarith)
    constructor <;> nlinarith
  · rw [if_neg hw]
    norm_num

/-- The popularity modifier always lies in `[0.75, 1.3]`. -/
lemma popularityModifier_bounds (pb : ℝ) :
    0.75 ≤ levelScorePopularityModifier pb ∧ levelScorePopularityModifier pb ≤ 1.3 := by
  unfold levelScorePopularityModifier MINIMUM_PBS
  by_cases h1 : pb < 5
  · rw [if_pos h1]; norm_num
  · rw [if_neg h1]
    by_cases h2 : pb < 250
    · rw [if_pos h2]
      have h0 : (0 : ℝ) ≤ Real.sqrt ((pb - 1) / 249) := Real.sqrt_nonneg _
      have hle : Real.sqrt ((pb - 1) / 249) ≤ 1 := by
        rw [Real.sqrt_le_one]
        rw [div_le_one (by norm_num)]
        linarith
      constructor <;> nlinarith
    · rw [if_neg h2]; norm_num

/-! ## Claims -/

/-- C2: with `totalRecords = 0`, `calculateLevelPoints` returns
`points = 0` and an all-zero contributions record, regardless of the
other input fields. -/
theorem C2_zero_records (input : CalculateLevelScore) (h : input.totalRecords = 0) :
    calculateLevelPoints input =
      { points := num 0
        contributions :=
          { length := num 0, competitiveness := num 0, rating := num 0, popularity := num 0 } } := by
  unfold calculateLevelPoints
  rw [if_pos h]

theorem C2_zero_records_witness :
    calculateLevelPoints ⟨[1, 2, 3], 7, 0, 50⟩ =
      { points := num 0
        contributions :=
          { length := num 0, competitiveness := num 0, rating := num 0, popularity := num 0 } } :=
  C2_zero_records _ rfl

/-- C4: whenever `topTimes` has at most 5 entries, the competitiveness
multiplier short-circuits to modifier `0.25` with all diagnostic
sub-scores equal to `0`, for every `wrTime`, `personalBests` and
`totalRecords`. -/
theorem C4_short_circuit (wr : ℝ) (l : List ℝ) (pb total : ℝ) (h : l.length ≤ 5) :
    levelScoreCompetitivenessMultiplier wr l pb total =
      { modifier := num 0.25, spreadScore := num 0, pbRatio := num 0,
        grindinessScore := num 0 } := by
  unfold levelScoreCompetitivenessMultiplier
  rw [if_pos]
  unfold MINIMUM_PBS
  exact_mod_cast h

theorem C4_short_circuit_witness :
    levelScoreCompetitivenessMultiplier 3 [3, 4, 5] 100 1000 =
      { modifier := num 0.25, spreadScore := num 0, pbRatio := num 0,
        grindinessScore := num 0 } :=
  C4_short_circuit 3 [3, 4, 5] 100 1000 (by norm_num)

/-- C8 counterexample: with `min = 5 > max = 3` and `v = 10 > max`, the
source `clamp` returns `min` (5), not `max` (3) as the claim requires. -/
theorem C8_clamp_counterexample :
    (3 : ℝ) < 10 ∧ clamp (num 10) (num 5) (num 3) = num 5 ∧ num (5 : ℝ) ≠ num 3 := by
  refine ⟨by norm_num, ?_, ?_⟩
  · rw [clamp_num]
    norm_num
  · intro h
    have : (5 : ℝ) = 3 := JNum.num.inj h
    norm_num at this

/-- C8 amended: when `min ≤ max`, `clamp` returns `min` for `v < min`,
`max` for `v > max`, and `v` itself for `min ≤ v ≤ max`; and it returns
NaN whenever any of the three arguments is not finite (no ordering
hypothesis needed). -/
theorem C8_clamp_amended :
    (∀ v lo hi : ℝ, lo ≤ hi →
      (v < lo → clamp (num v) (num lo) (num hi) = num lo) ∧
      (hi < v → clamp (num v) (num lo) (num hi) = num hi) ∧
      (lo ≤ v → v ≤ hi → clamp (num v) (num lo) (num hi) = num v)) ∧
    (∀ a b c : JNum, ¬(a.isFinite = true ∧ b.isFinite = true ∧ c.isFinite = true) →
      clamp a b c = nan) := by
  constructor
  · intro v lo hi hlohi
    refine ⟨?_, ?_, ?_⟩
    · intro hv
      rw [clamp_num, min_eq_right (le_of_lt (lt_of_lt_of_le hv hlohi)),
        max_eq_left (le_of_lt hv)]
    · intro hv
      rw [clamp_num, min_eq_left (le_of_lt hv), max_eq_right hlohi]
    · intro h1 h2
      rw [clamp_num, min_eq_right h2, max_eq_right h1]
  · intro a b c h
    cases a <;> cases b <;> cases c <;> simp_all [clamp, JNum.isFinite]

theorem C8_clamp_amended_witness :
    clamp (num 1) (num 2) (num 5) = num 2 ∧ clamp nan (num 0) (num 1) = nan :=
  ⟨(C8_clamp_amended.1 1 2 5 (by norm_num)).1 (by norm_num),
   C8_clamp_amended.2 nan (num 0) (num 1) (by simp [JNum.isFinite])⟩

/-- C10: for positive `totalRecords`, multiplying the base constant with the
four reported contribution fields (in source order) and rounding reproduces
the returned points value, because the reported rating contribution is the
very literal `1` used in the product. -/
theorem C10_contributions_product (input : CalculateLevelScore) (h : 0 < input.totalRecords) :
    (calculateLevelPoints input).points =
      JNum.round
        (JNum.mul
          (JNum.mul
            (JNum.mul
              (JNum.mul (num BASE_POINTS) (calculateLevelPoints input).contributions.length)
              (calculateLevelPoints input).contributions.competitiveness)
            (calculateLevelPoints input).contributions.rating)
          (calculateLevelPoints input).contributions.popularity) := by
  have h0 : input.totalRecords ≠ 0 := ne_of_gt h
  unfold calculateLevelPoints
  rw [if_neg h0]

theorem C10_contributions_product_witness :
    (calculateLevelPoints ⟨[7, 8, 9], 3, 12, 60⟩).points =
      JNum.round
        (JNum.mul
          (JNum.mul
            (JNum.mul
              (JNum.mul (num BASE_POINTS)
                (calculateLevelPoints ⟨[7, 8, 9], 3, 12, 60⟩).contributions.length)
              (calculateLevelPoints ⟨[7, 8, 9], 3, 12, 60⟩).contributions.competitiveness)
            (calculateLevelPoints ⟨[7, 8, 9], 3, 12, 60⟩).contributions.rating)
          (calculateLevelPoints ⟨[7, 8, 9], 3, 12, 60⟩).contributions.popularity) :=
  C10_contributions_product ⟨[7, 8, 9], 3, 12, 60⟩ (by norm_num)

/-- C9: for every input (all numeric fields finite reals by construction),
`calculateLevelPoints` returns a structurally complete result whose points
value and contribution fields are all finite reals — never NaN, never an
error — including for empty `topTimes` or all-zero times. -/
theorem C9_always_finite (input : CalculateLevelScore) :
    ∃ p a b c d : ℝ,
      calculateLevelPoints input =
        { points := num p
          contributions :=
            { length := num a, competitiveness := num b, rating := num c,
              popularity := num d } } := by
  by_cases h : input.totalRecords = 0
  · refine ⟨0, 0, 0, 0, 0, ?_⟩
    unfold calculateLevelPoints
    rw [if_pos h]
  · obtain ⟨m, hm, -, -⟩ :=
      competitiveness_modifier_range (input.topTimes.headD 0) input.topTimes
        input.personalBests input.totalRecords
    refine ⟨((⌊BASE_POINTS * levelScoreLengthMultiplier (input.topTimes.headD 0) * m * 1 *
        levelScorePopularityModifier input.personalBests + 1 / 2⌋ : ℤ) : ℝ),
      levelScoreLengthMultiplier (input.topTimes.headD 0), m, 1,
      levelScorePopularityModifier input.personalBests, ?_⟩
    unfold calculateLevelPoints
    rw [if_neg h]
    simp only [normaliseNumber_num]
    rw [hm]
    simp only [mul_num_num, round_num]

/-- C3: for positive `totalRecords`, the points are the rounded product of
the base constant, the length multiplier, the competitiveness modifier, the
literal `1` and the popularity modifier; the reported rating contribution is
the constant `1`; and the result does not depend on `levelRating` at all. -/
theorem C3_rating_excluded (input : CalculateLevelScore) (h : 0 < input.totalRecords) :
    ((calculateLevelPoints input).points =
      JNum.round
        (JNum.mul
          (JNum.mul
            (JNum.mul
              (JNum.mul (num BASE_POINTS)
                (num (levelScoreLengthMultiplier (input.topTimes.headD 0))))
              (levelScoreCompetitivenessMultiplier (input.topTimes.headD 0) input.topTimes
                input.personalBests input.totalRecords).modifier)
            (num 1))
          (num (levelScorePopularityModifier input.personalBests)))) ∧
    (calculateLevelPoints input).contributions.rating = num 1 ∧
    ∀ r : ℝ, calculateLevelPoints { input with levelRating := r } = calculateLevelPoints input := by
  have h0 : input.totalRecords ≠ 0 := ne_of_gt h
  refine ⟨?_, ?_, ?_⟩
  · unfold calculateLevelPoints
    rw [if_neg h0]
    simp only [normaliseNumber_num]
  · unfold calculateLevelPoints
    rw [if_neg h0]
  · intro r
    unfold calculateLevelPoints
    rfl

theorem C3_rating_excluded_witness :
    ((calculateLevelPoints ⟨[10], 1, 1, 100⟩).points =
      JNum.round
        (JNum.mul
          (JNum.mul
            (JNum.mul
              (JNum.mul (num BASE_POINTS)
                (num (levelScoreLengthMultiplier (([(10 : ℝ)] : List ℝ).headD 0))))
              (levelScoreCompetitivenessMultiplier (([(10 : ℝ)] : List ℝ).headD 0) [10] 1
                1).modifier)
            (num 1))
          (num (levelScorePopularityModifier 1)))) ∧
    (calculateLevelPoints ⟨[10], 1, 1, 100⟩).contributions.rating = num 1 ∧
    ∀ r : ℝ, calculateLevelPoints ⟨[10], 1, 1, r⟩ = calculateLevelPoints ⟨[10], 1, 1, 100⟩ :=
  C3_rating_excluded ⟨[10], 1, 1, 100⟩ (by norm_num)

/-- C6: the length multiplier is monotone non-decreasing on `[0, 20]`,
equals `0.1` for every world-record time at most `5`, and equals `1` for
every world-record time at least `20`. -/
theorem C6_length_multiplier :
    (∀ a b : ℝ, 0 ≤ a → a ≤ b → b ≤ 20 →
      levelScoreLengthMultiplier a ≤ levelScoreLengthMultiplier b) ∧
    (∀ w : ℝ, w ≤ 5 → levelScoreLengthMultiplier w = 0.1) ∧
    (∀ w : ℝ, 20 ≤ w → levelScoreLengthMultiplier w = 1) := by
  refine ⟨?_, ?_, ?_⟩
  · intro a b _ hab _
    by_cases hb : b < 20
    · have ha20 : a < 20 := lt_of_le_of_lt hab hb
      unfold levelScoreLengthMultiplier
      rw [if_pos ha20, if_pos hb]
      have hmono : Real.sqrt (max 0 (a - 5) / 15) ≤ Real.sqrt (max 0 (b - 5) / 15) := by
        apply Real.sqrt_le_sqrt
        gcongr
      dsimp only
      linarith
    · have hb1 : levelScoreLengthMultiplier b = 1 := by
        unfold levelScoreLengthMultiplier
        rw [if_neg hb]
      rw [hb1]
      exact (lengthMultiplier_bounds a).2
  · intro w hw
    have hw20 : w < 20 := by linarith
    unfold levelScoreLengthMultiplier
    rw [if_pos hw20]
    have hmax : max 0 (w - 5) = 0 := max_eq_left (by linarith)
    rw [hmax]
    norm_num
  · intro w hw
    unfold levelScoreLengthMultiplier
    rw [if_neg (by linarith)]

theorem C6_length_multiplier_witness :
    levelScoreLengthMultiplier 10 ≤ levelScoreLengthMultiplier 15 ∧
    levelScoreLengthMultiplier 3 = 0.1 ∧ levelScoreLengthMultiplier 25 = 1 :=
  ⟨C6_length_multiplier.1 10 15 (by norm_num) (by norm_num) (by norm_num),
   C6_length_multiplier.2.1 3 (by norm_num),
   C6_length_multiplier.2.2 25 (by norm_num)⟩

/-- For `personalBests ≥ 5` the popularity modifier is at least `0.8`. -/
lemma popularity_ge_of_five (y : ℝ) (h5 : 5 ≤ y) :
    0.8 ≤ levelScorePopularityModifier y := by
  unfold levelScorePopularityModifier MINIMUM_PBS
  rw [if_neg (by linarith)]
  by_cases h2 : y < 250
  · rw [if_pos h2]
    have h1 : (1 : ℝ) / 11 ≤ Real.sqrt ((y - 1) / 249) := by
      apply Real.le_sqrt_of_sq_le
      have : ((1 : ℝ) / 11) ^ 2 = 1 / 121 := by norm_num
      rw [this, div_le_div_iff₀ (by norm_num) (by norm_num)]
      linarith
    dsimp only
    nlinarith
  · rw [if_neg h2]
    norm_num

/-- The popularity modifier is monotone non-decreasing over the reals. -/
lemma popularity_mono (x y : ℝ) (hxy : x ≤ y) :
    levelScorePopularityModifier x ≤ levelScorePopularityModifier y := by
  by_cases hx : x < 5
  · have hx8 : levelScorePopularityModifier x = 0.8 := by
      unfold levelScorePopularityModifier MINIMUM_PBS
      rw [if_pos hx]
      norm_num
    by_cases hy : y < 5
    · have hy8 : levelScorePopularityModifier y = 0.8 := by
        unfold levelScorePopularityModifier MINIMUM_PBS
        rw [if_pos hy]
        norm_num
      rw [hx8, hy8]
    · rw [hx8]
      exact popularity_ge_of_five y (by linarith)
  · have hx5 : 5 ≤ x := le_of_not_lt hx
    have hy5 : 5 ≤ y := le_trans hx5 hxy
    by_cases hy2 : y < 250
    · have hx2 : x < 250 := lt_of_le_of_lt hxy hy2
      unfold levelScorePopularityModifier MINIMUM_PBS
      rw [if_neg (not_lt.2 hx5), if_neg (not_lt.2 hy5), if_pos hx2, if_pos hy2]
      have hs : Real.sqrt ((x - 1) / 249) ≤ Real.sqrt ((y - 1) / 249) := by
        apply Real.sqrt_le_sqrt
        gcongr
      dsimp only
      linarith
    · have hy13 : levelScorePopularityModifier y = 1.3 := by
        unfold levelScorePopularityModifier MINIMUM_PBS
        rw [if_neg (not_lt.2 hy5), if_neg hy2]
        norm_num
      rw [hy13]
      exact (popularityModifier_bounds x).2

/-- C7: over non-negative integer inputs the popularity modifier is monotone
non-decreasing, equals `0.8` below `5` personal bests and equals `1.3` from
`250` personal bests onward. -/
theorem C7_popularity :
    (∀ m n : ℕ, m ≤ n →
      levelScorePopularityModifier (m : ℝ) ≤ levelScorePopularityModifier (n : ℝ)) ∧
    (∀ n : ℕ, n < 5 → levelScorePopularityModifier (n : ℝ) = 0.8) ∧
    (∀ n : ℕ, 250 ≤ n → levelScorePopularityModifier (n : ℝ) = 1.3) := by
  refine ⟨fun m n h => popularity_mono _ _ (by exact_mod_cast h), ?_, ?_⟩
  · intro n hn
    unfold levelScorePopularityModifier MINIMUM_PBS
    rw [if_pos (by exact_mod_cast hn)]
    norm_num
  · intro n hn
    have h5 : ¬((n : ℝ) < 5) := by
      push_neg
      exact_mod_cast le_trans (by norm_num) hn
    have h250 : ¬((n : ℝ) < 250) := by
      push_neg
      exact_mod_cast hn
    unfold levelScorePopularityModifier MINIMUM_PBS
    rw [if_neg h5, if_neg h250]
    norm_num

theorem C7_popularity_witness :
    levelScorePopularityModifier ((10 : ℕ) : ℝ) ≤ levelScorePopularityModifier ((20 : ℕ) : ℝ) ∧
    levelScorePopularityModifier ((3 : ℕ) : ℝ) = 0.8 ∧
    levelScorePopularityModifier ((300 : ℕ) : ℝ) = 1.3 :=
  ⟨C7_popularity.1 10 20 (by norm_num), C7_popularity.2.1 3 (by norm_num),
   C7_popularity.2.2 300 (by norm_num)⟩

/-- C5: with more than 5 top times the competitiveness modifier is always a
finite real in `[-3, 3]` (never NaN); in the degenerate cases — all sampled
times zero (so `avgTop50 = 0`) or a zero pb-ratio (diverging logarithm) —
the invalid arithmetic is normalised to a modifier of `0` rather than
propagated. -/
theorem C5_modifier_normalised (wr : ℝ) (l : List ℝ) (pb total : ℝ) (h : 5 < l.length) :
    (∃ r : ℝ, (levelScoreCompetitivenessMultiplier wr l pb total).modifier = num r ∧
      -3 ≤ r ∧ r ≤ 3) ∧
    ((∀ t ∈ l, t = 0) → (levelScoreCompetitivenessMultiplier wr l pb total).modifier = num 0) ∧
    (¬0 < pb → (levelScoreCompetitivenessMultiplier wr l pb total).modifier = num 0) := by
  have hlen : ¬((l.length : ℝ) ≤ MINIMUM_PBS) := by
    unfold MINIMUM_PBS
    push_neg
    exact_mod_cast h
  refine ⟨competitiveness_modifier_range wr l pb total, ?_, ?_⟩
  · intro hz
    have h50sum : (l.take 50).sum = 0 :=
      List.sum_eq_zero fun x hx => hz x (List.mem_of_mem_take hx)
    have h10sum : (l.take 10).sum = 0 :=
      List.sum_eq_zero fun x hx => hz x (List.mem_of_mem_take hx)
    have h50len : (((l.take 50).length : ℕ) : ℝ) ≠ 0 := by
      rw [List.length_take]
      have hmin : min 50 l.length ≠ 0 := by omega
      exact_mod_cast hmin
    have h10len : (((l.take 10).length : ℕ) : ℝ) ≠ 0 := by
      rw [List.length_take]
      have hmin : min 10 l.length ≠ 0 := by omega
      exact_mod_cast hmin
    unfold levelScoreCompetitivenessMultiplier
    rw [if_neg hlen]
    dsimp only
    unfold average
    rw [h50sum, h10sum, div_num_num_of_ne _ _ h50len, div_num_num_of_ne _ _ h10len,
      zero_div, zero_div, sub_num_num, sub_zero]
    have hdiv : JNum.div (num 0) (num 0) = nan := by norm_num [JNum.div]
    rw [hdiv]
    norm_num [JNum.mul, JNum.add, clamp, normaliseNumber]
  · intro hpb
    unfold levelScoreCompetitivenessMultiplier
    rw [if_neg hlen]
    dsimp only
    rw [if_neg hpb]
    have hlog : JNum.log (JNum.mul (num 2) (num 0)) = ninf := by
      norm_num [JNum.mul, JNum.log]
    rw [hlog]
    have hninf : JNum.add (num 1) ninf = ninf := rfl
    rw [hninf]
    generalize JNum.div (JNum.sub (average (l.take 50)) (average (l.take 10)))
      (average (l.take 50)) = S
    cases S <;> norm_num [JNum.mul, JNum.add, clamp, normaliseNumber]

theorem C5_modifier_normalised_witness :
    5 < ([0, 0, 0, 0, 0, 0] : List ℝ).length ∧
    (levelScoreCompetitivenessMultiplier 0 [0, 0, 0, 0, 0, 0] 0 5).modifier = num 0 :=
  ⟨by norm_num,
   (C5_modifier_normalised 0 [0, 0, 0, 0, 0, 0] 0 5 (by norm_num)).2.2 (by norm_num)⟩

/-- C1 counterexample: on an ascending list of positive times with
`personalBests = 1` and `totalRecords = 2 ^ 60` (non-negative integers) the
grindiness logarithm drives the competitiveness modifier to its clamp floor
`-3`, and the returned points value is `-6000`, which is negative. -/
theorem C1_counterexample_negative_points :
    List.Sorted (· ≤ ·) ([20, 21, 22, 23, 24, 25] : List ℝ) ∧
    (∀ t ∈ ([20, 21, 22, 23, 24, 25] : List ℝ), 0 < t) ∧
    (calculateLevelPoints ⟨[20, 21, 22, 23, 24, 25], 1, 2 ^ 60, 100⟩).points = num (-6000) ∧
    ¬(0 : ℝ) ≤ -6000 := by
  have htot : ((2 : ℝ) ^ 60) ≠ 0 := by positivity
  have hM : (levelScoreCompetitivenessMultiplier 20 [20, 21, 22, 23, 24, 25] 1
      ((2 : ℝ) ^ 60)).modifier = num (-3) := by
    unfold levelScoreCompetitivenessMultiplier
    rw [if_neg (by norm_num [MINIMUM_PBS])]
    dsimp only
    have htake50 : ([20, 21, 22, 23, 24, 25] : List ℝ).take 50 = [20, 21, 22, 23, 24, 25] :=
      List.take_of_length_le (by norm_num)
    have htake10 : ([20, 21, 22, 23, 24, 25] : List ℝ).take 10 = [20, 21, 22, 23, 24, 25] :=
      List.take_of_length_le (by norm_num)
    rw [htake50, htake10]
    have havg : average [20, 21, 22, 23, 24, 25] = num 22.5 := by
      unfold average
      rw [div_num_num_of_ne _ _ (by norm_num)]
      norm_num
    rw [havg]
    have hspread : JNum.div (JNum.sub (num 22.5) (num 22.5)) (num 22.5) = num 0 := by
      rw [sub_num_num, div_num_num_of_ne _ _ (by norm_num)]
      norm_num
    rw [hspread, if_pos (by norm_num : (0 : ℝ) < 1), div_num_num_of_ne _ _ htot]
    simp only [mul_num_num]
    rw [log_num_of_pos _ (by positivity)]
    have hlogeq : Real.log (2 * (1 / 2 ^ 60 : ℝ)) = -(59 * Real.log 2) := by
      have harg : (2 * (1 / 2 ^ 60) : ℝ) = ((2 : ℝ) ^ (59 : ℕ))⁻¹ := by
        norm_num
      rw [harg, Real.log_inv, Real.log_pow]
      norm_num
    rw [hlogeq]
    simp only [add_num_num, mul_num_num, clamp_num]
    have hle : (1 : ℝ) + (0.65 * 0 + 0.2 * (1 + -(59 * Real.log 2))) ≤ -3 := by
      have hlog2 := Real.log_two_gt_d9
      nlinarith
    rw [min_eq_right (by linarith : (1 : ℝ) + (0.65 * 0 + 0.2 * (1 + -(59 * Real.log 2))) ≤ 3),
      max_eq_left hle]
    rfl
  refine ⟨?_, ?_, ?_, by norm_num⟩
  · norm_num [List.sorted_cons]
  · intro t ht
    fin_cases ht <;> norm_num
  · unfold calculateLevelPoints
    dsimp only
    rw [if_neg htot]
    have hhead : ([20, 21, 22, 23, 24, 25] : List ℝ).headD 0 = 20 := rfl
    rw [hhead, hM]
    have hL : levelScoreLengthMultiplier 20 = 1 := by
      unfold levelScoreLengthMultiplier
      rw [if_neg (by norm_num)]
    have hP : levelScorePopularityModifier 1 = 0.8 := by
      unfold levelScorePopularityModifier MINIMUM_PBS
      rw [if_pos (by norm_num)]
      norm_num
    rw [hL, hP]
    simp only [normaliseNumber_num, mul_num_num, round_num]
    have hfloor : (⌊BASE_POINTS * 1 * -3 * 1 * 0.8 + 1 / 2⌋ : ℤ) = -6000 := by
      apply Int.floor_eq_iff.mpr
      unfold BASE_POINTS
      norm_num
    rw [hfloor]
    norm_num

/-- C1 amended: the points value is always an integer, and it is bounded
below by `-9750` (it can be negative, so the claimed lower bound `0` fails;
`-9750 = -(2500 · 1 · 3 · 1.3)` is the worst case of the factor ranges). -/
theorem C1_amended_points_integer (input : CalculateLevelScore) :
    ∃ n : ℤ, (calculateLevelPoints input).points = num (n : ℝ) ∧ -9750 ≤ n := by
  by_cases h : input.totalRecords = 0
  · refine ⟨0, ?_, by norm_num⟩
    unfold calculateLevelPoints
    rw [if_pos h]
    norm_num
  · obtain ⟨m, hm, hm1, hm2⟩ :=
      competitiveness_modifier_range (input.topTimes.headD 0) input.topTimes
        input.personalBests input.totalRecords
    obtain ⟨hL1, hL2⟩ := lengthMultiplier_bounds (input.topTimes.headD 0)
    obtain ⟨hP1, hP2⟩ := popularityModifier_bounds input.personalBests
    refine ⟨⌊BASE_POINTS * levelScoreLengthMultiplier (input.topTimes.headD 0) * m * 1 *
        levelScorePopularityModifier input.personalBests + 1 / 2⌋, ?_, ?_⟩
    · unfold calculateLevelPoints
      rw [if_neg h]
      simp only [normaliseNumber_num]
      rw [hm]
      simp only [mul_num_num, round_num]
    · rw [Int.le_floor]
      have hBASE : BASE_POINTS = 2500 := rfl
      have hLP : levelScoreLengthMultiplier (input.topTimes.headD 0) *
          levelScorePopularityModifier input.personalBests ≤ 1.3 := by nlinarith
      have hA : 0 ≤ levelScoreLengthMultiplier (input.topTimes.headD 0) * (m + 3) *
          levelScorePopularityModifier input.personalBests :=
        mul_nonneg (mul_nonneg (by linarith) (by linarith)) (by linarith)
      have key : -9750 ≤ BASE_POINTS * levelScoreLengthMultiplier (input.topTimes.headD 0) *
          m * 1 * levelScorePopularityModifier input.personalBests := by
        rw [hBASE]
        nlinarith
      push_cast
      linarith

end Zeepkist
